import Mathlib

/-!
Shallow embedding of the ESAproxy edge functions (src/edge-function.js and
src/unnamed/part_000).  Strings are modelled as `List Char`; the JavaScript
platform functions the code calls (`new URL`, `encodeURIComponent`,
`String.prototype.replace` with the concrete regexes of the source,
`Headers`) are modelled explicitly below, each next to the definitions
translated from the repository's own functions.
-/

namespace Esa

/-- ASCII lower-casing, as applied by the URL parser to schemes/hosts and by
the case-insensitive (`i` flag) regex matching of the source. -/
def lowerC (c : Char) : Char :=
  if 65 ≤ c.toNat ∧ c.toNat ≤ 90 then Char.ofNat (c.toNat + 32) else c

/-- Whitespace class of the JavaScript regex escape `\s` (common members). -/
def jsSpace (c : Char) : Bool :=
  c = ' ' ∨ c = '\t' ∨ c = '\n' ∨ c = '\r' ∨ c = '\x0b' ∨ c = '\x0c' ∨
  c = ' ' ∨ c = '﻿'

def quoteB (c : Char) : Bool := c = '"' ∨ c = '\x27'

/-- Case-insensitive prefix test (first argument is the pattern). -/
def ciStarts : List Char → List Char → Bool
  | [], _ => true
  | _ :: _, [] => false
  | p :: ps, c :: cs => lowerC p = lowerC c ∧ ciStarts ps cs

/-- JavaScript `String.prototype.includes` (substring test). -/
def jsIncludes (l pat : List Char) : Bool :=
  match l with
  | [] => List.isPrefixOf pat []
  | _ :: rest => List.isPrefixOf pat l ∨ jsIncludes rest pat

/-- JavaScript `String.prototype.replace` with a plain-string pattern:
replace the first occurrence only, leave the string unchanged otherwise. -/
def replaceFirst (l pat rep : List Char) : List Char :=
  match l with
  | [] => []
  | c :: rest =>
    if List.isPrefixOf pat (c :: rest) then rep ++ (c :: rest).drop pat.length
    else c :: replaceFirst rest pat rep

/-- Specification-side splitter: the first occurrence of `pat` in `l`,
returned as the text before and after it. -/
def splitSub (l pat : List Char) : Option (List Char × List Char) :=
  match l with
  | [] => none
  | c :: rest =>
    if List.isPrefixOf pat (c :: rest) then some ([], (c :: rest).drop pat.length)
    else (splitSub rest pat).map (fun p => (c :: p.1, p.2))

/-! ### encodeURIComponent -/

def isUnreservedC (c : Char) : Bool :=
  (48 ≤ c.toNat ∧ c.toNat ≤ 57) ∨ (65 ≤ c.toNat ∧ c.toNat ≤ 90) ∨
  (97 ≤ c.toNat ∧ c.toNat ≤ 122) ∨
  c = '-' ∨ c = '_' ∨ c = '.' ∨ c = '!' ∨ c = '~' ∨ c = '*' ∨ c = '\x27' ∨
  c = '(' ∨ c = ')'

def hexD (n : Nat) : Char :=
  if n < 10 then Char.ofNat (48 + n) else Char.ofNat (55 + n)

def encByte (b : Nat) : List Char := ['%', hexD (b / 16), hexD (b % 16)]

/-- UTF-8 bytes of a code point. -/
def utf8Bytes (c : Char) : List Nat :=
  let n := c.toNat
  if n < 128 then [n]
  else if n < 2048 then [192 + n / 64, 128 + n % 64]
  else if n < 65536 then [224 + n / 4096, 128 + (n / 64) % 64, 128 + n % 64]
  else [240 + n / 262144, 128 + (n / 4096) % 64, 128 + (n / 64) % 64, 128 + n % 64]

/-- JavaScript `encodeURIComponent`: every character outside the unreserved
set is replaced by the percent-encoding of its UTF-8 bytes. -/
def encodeURIComponent (l : List Char) : List Char :=
  match l with
  | [] => []
  | c :: rest =>
    (if isUnreservedC c then [c] else (utf8Bytes c).foldr (fun b acc => encByte b ++ acc) [])
    ++ encodeURIComponent rest

/-! ### URL model (`new URL`)

A model of the WHATWG URL parser restricted to what the proxy code
exercises: absolute parsing of special (`http`/`https`/`ws`/`wss`/`ftp`/
`file`) and non-special (opaque, e.g. `data:`/`javascript:`/`mailto:`)
URLs, relative-reference resolution against an authority base, dot-segment
removal, and `.href` serialization.  Percent-encoding of stray code points
and host validation beyond emptiness/spaces are not modelled. -/

inductive UrlRec where
  | auth (scheme host path query frag : List Char)
  | op (scheme rest : List Char)
deriving DecidableEq

def isAlphaC (c : Char) : Bool :=
  (65 ≤ c.toNat ∧ c.toNat ≤ 90) ∨ (97 ≤ c.toNat ∧ c.toNat ≤ 122)

def isSchemeC (c : Char) : Bool :=
  isAlphaC c ∨ (48 ≤ c.toNat ∧ c.toNat ≤ 57) ∨ c = '+' ∨ c = '-' ∨ c = '.'

/-- Split off a leading `scheme:`; the scheme is lower-cased. -/
def parseScheme (l : List Char) : Option (List Char × List Char) :=
  match l with
  | [] => none
  | c :: _ =>
    if isAlphaC c then
      let s := l.takeWhile isSchemeC
      match l.drop s.length with
      | ':' :: rest => some (s.map lowerC, rest)
      | _ => none
    else none

def sHttp : List Char := "http".data
def sHttps : List Char := "https".data
def specialSchemes : List (List Char) :=
  [sHttp, sHttps, "ws".data, "wss".data, "ftp".data, "file".data]

/-- One step of RFC 3986 `remove_dot_segments`; `outRev` is the output in
reverse. -/
def popSegRev (outRev : List Char) : List Char :=
  (outRev.dropWhile (fun c => ¬ c = '/')).drop 1

def rdsStep : Nat → List Char → List Char → List Char
  | 0, _, outRev => outRev.reverse
  | _ + 1, [], outRev => outRev.reverse
  | fuel + 1, input, outRev =>
    if List.isPrefixOf ("../".data) input then rdsStep fuel (input.drop 3) outRev
    else if List.isPrefixOf ("./".data) input then rdsStep fuel (input.drop 2) outRev
    else if List.isPrefixOf ("/./".data) input then rdsStep fuel ('/' :: input.drop 3) outRev
    else if input = "/.".data then rdsStep fuel ['/'] outRev
    else if List.isPrefixOf ("/../".data) input then
      rdsStep fuel ('/' :: input.drop 4) (popSegRev outRev)
    else if input = "/..".data then rdsStep fuel ['/'] (popSegRev outRev)
    else if input = ".".data ∨ input = "..".data then rdsStep fuel [] outRev
    else
      match input with
      | '/' :: r =>
        let seg := r.takeWhile (fun c => ¬ c = '/')
        rdsStep fuel (r.drop seg.length) (seg.reverse ++ '/' :: outRev)
      | _ =>
        let seg := input.takeWhile (fun c => ¬ c = '/')
        rdsStep fuel (input.drop seg.length) (seg.reverse ++ outRev)

def removeDotSegs (p : List Char) : List Char := rdsStep (p.length + 1) p []

/-- Split a path-query-fragment tail into its three pieces (the `?`/`#`
markers stay attached to query/fragment). -/
def splitPQF (r : List Char) : List Char × List Char × List Char :=
  let p := r.takeWhile (fun c => ¬ (c = '?' ∨ c = '#'))
  let r2 := r.drop p.length
  let q := r2.takeWhile (fun c => ¬ c = '#')
  (p, q, r2.drop q.length)

/-- Authority parsing for a special scheme; WHATWG leniently skips any run
of slashes after `scheme:` and fails on an empty (or space-containing)
host. -/
def parseSpecialRest (scheme rest : List Char) : Option UrlRec :=
  let r1 := rest.dropWhile (fun c => c = '/' ∨ c = '\\')
  let host := r1.takeWhile (fun c => ¬ (c = '/' ∨ c = '?' ∨ c = '#' ∨ c = '\\'))
  if host.isEmpty then none
  else if host.any (fun c => c = ' ') then none
  else
    let pqf := splitPQF (r1.drop host.length)
    some (UrlRec.auth scheme (host.map lowerC) (removeDotSegs pqf.1) pqf.2.1 pqf.2.2)

/-- `new URL(s)` without a base. -/
def parseAbs (l : List Char) : Option UrlRec :=
  match parseScheme l with
  | none => none
  | some (s, rest) =>
    if specialSchemes.contains s then parseSpecialRest s rest
    else some (UrlRec.op s rest)

/-- Directory of a base path for relative-reference merging. -/
def dirOf (bp : List Char) : List Char :=
  let d := (bp.reverse.dropWhile (fun c => ¬ c = '/')).reverse
  if d.isEmpty then ['/'] else d

/-- Resolution of a schemeless (or same-special-scheme) reference against an
authority base. -/
def relPart (r bs bh bp bq : List Char) : Option UrlRec :=
  match r with
  | [] => some (UrlRec.auth bs bh bp bq [])
  | '#' :: _ => some (UrlRec.auth bs bh bp bq r)
  | '?' :: _ =>
    let q := r.takeWhile (fun c => ¬ c = '#')
    some (UrlRec.auth bs bh bp q (r.drop q.length))
  | '/' :: '/' :: _ => parseSpecialRest bs r
  | '/' :: _ =>
    let pqf := splitPQF r
    some (UrlRec.auth bs bh (removeDotSegs pqf.1) pqf.2.1 pqf.2.2)
  | _ =>
    let pqf := splitPQF r
    some (UrlRec.auth bs bh (removeDotSegs (dirOf bp ++ pqf.1)) pqf.2.1 pqf.2.2)

/-- `new URL(ref, base)` for an already-parsed base. -/
def urlResolve (ref : List Char) (b : UrlRec) : Option UrlRec :=
  match b with
  | UrlRec.op _ _ => none
  | UrlRec.auth bs bh bp bq _ =>
    match parseScheme ref with
    | some (s, rest) =>
      if specialSchemes.contains s then
        if List.isPrefixOf ("//".data) rest then parseSpecialRest s rest
        else if s = bs then relPart rest bs bh bp bq
        else parseSpecialRest s rest
      else some (UrlRec.op s rest)
    | none => relPart ref bs bh bp bq

/-- `.href` serialization. -/
def hrefOf : UrlRec → List Char
  | UrlRec.auth s h p q f =>
    s ++ "://".data ++ h ++ (if p.isEmpty then ['/'] else p) ++ q ++ f
  | UrlRec.op s r => s ++ [':'] ++ r

/-- `.protocol` (scheme with trailing colon). -/
def protocolOf : UrlRec → List Char
  | UrlRec.auth s _ _ _ _ => s ++ [':']
  | UrlRec.op s _ => s ++ [':']

/-- `.host` (empty for opaque URLs, as in JavaScript). -/
def hostOf : UrlRec → List Char
  | UrlRec.auth _ h _ _ _ => h
  | UrlRec.op _ _ => []

/-- The string `` `${target.protocol}//${target.host}` `` both files build. -/
def baseStrOf (t : UrlRec) : List Char := protocolOf t ++ "//".data ++ hostOf t

/-- `new URL(ref, baseStr).href` for a base given as a string, `none` when
the constructor would throw. -/
def resolveStr (ref baseS : List Char) : Option (List Char) :=
  match parseAbs baseS with
  | none => none
  | some b => (urlResolve ref b).map hrefOf

/-! ### The source's regexes

Hand-rolled matchers for the concrete regexes of `rewriteHtml`, with
JavaScript semantics: leftmost match, greedy `[^>]*` (so the rightmost
eligible `src=`/`href=` inside a tag's non-`>` run wins, with backtracking
when the value group fails), case-insensitive (`i`) matching of tag/
attribute names, and global (`g`) scanning that resumes after each match.
A match is reported as the lengths of its three capture-shaped pieces:
everything up to and including the opening quote, the value `[^"']+`, and
the closing piece. -/

/-- The value group `([^"']+)` followed by `["']`: succeeds iff the maximal
quote-free run after the opening quote is nonempty and is terminated by a
quote character (not by the end of the input). -/
def grp2len (l : List Char) : Option Nat :=
  let m := (l.takeWhile (fun c => ¬ quoteB c)).length
  if m = 0 then none else if m = l.length then none else some m

/-- Try `attrEq` (e.g. `src=`) at offset `off` of the tag body, requiring an
opening quote and a valid value group after it. -/
def tryOff (attrEq body : List Char) (off : Nat) : Option Nat :=
  let t := body.drop off
  if ciStarts attrEq t then
    match t.drop attrEq.length with
    | [] => none
    | q :: rest => if quoteB q then grp2len rest else none
  else none

/-- Greedy `[^>]*`: search offsets from the largest downward. -/
def searchOff (attrEq body : List Char) : Nat → Option (Nat × Nat)
  | 0 => (tryOff attrEq body 0).map (fun g => (0, g))
  | k + 1 =>
    match tryOff attrEq body (k + 1) with
    | some g => some (k + 1, g)
    | none => searchOff attrEq body k

/-- Matcher for `(<(?:tag|…)\s+[^>]*ATTR=["'])([^"']+)(["'])` at the head of
the input. -/
def tryAttr (tags : List (List Char)) (attrEq : List Char) (l : List Char) :
    Option (Nat × Nat × Nat) :=
  match l with
  | '<' :: rest =>
    match tags.findSome? (fun t => if ciStarts t rest then some t.length else none) with
    | none => none
    | some tl =>
      match rest.drop tl with
      | [] => none
      | w :: body =>
        if jsSpace w then
          let bound := (body.takeWhile (fun c => ¬ c = '>')).length
          match searchOff attrEq body bound with
          | none => none
          | some og => some (1 + tl + 1 + og.1 + attrEq.length + 1, og.2, 1)
        else none
  | _ => none

def srcTags : List (List Char) :=
  ["img".data, "script".data, "iframe".data, "embed".data, "audio".data,
   "video".data, "source".data]
def linkTags : List (List Char) := ["link".data]
def aLinkTags : List (List Char) := ["a".data, "link".data]
def srcEq : List Char := "src=".data
def hrefEq : List Char := "href=".data

/-- Matcher for part_000's `<base\s+href=["']([^"']+)["']` (no `[^>]*`, so
`href=` must directly follow the whitespace run). -/
def tryBase (l : List Char) : Option (Nat × Nat × Nat) :=
  match l with
  | '<' :: rest =>
    if ciStarts ("base".data) rest then
      let after := rest.drop 4
      let w := (after.takeWhile jsSpace).length
      if w = 0 then none
      else
        match (after.drop w).splitAt 5 with
        | (h5, q :: r2) =>
          if ciStarts ("href=".data) h5 ∧ h5.length = 5 ∧ quoteB q then
            match grp2len r2 with
            | some m => some (1 + 4 + w + 5 + 1, m, 1)
            | none => none
          else none
        | (_, []) => none
    else none
  | _ => none

/-- Matcher for part_000's CSS rule `url\(["']?([^"')]+)["']?\)`. -/
def tryCss (l : List Char) : Option (Nat × Nat × Nat) :=
  if ciStarts ("url(".data) l then
    let t := l.drop 4
    match t with
    | [] => none
    | c :: _ =>
      let q1 := if quoteB c then 1 else 0
      let t2 := t.drop q1
      let m := (t2.takeWhile (fun c => ¬ (quoteB c ∨ c = ')'))).length
      if m = 0 then none
      else
        match t2.drop m with
        | [] => none
        | d :: r2 =>
          if d = ')' then some (4 + q1, m, 1)
          else
            match r2 with
            | ')' :: _ => some (4 + q1, m, 2)
            | _ => none
  else none

/-- Global regex replace: scan left to right, apply the callback to each
match (given the three pieces), resume after the match.  Structural
recursion on a fuel that bounds the number of scanning steps (each step
consumes at least one character, so `length + 1` fuel always suffices;
`try1` never returns an empty match for the matchers above, and the
`a + b + g = 0` guard only covers that impossible case). -/
def runReplF (try1 : List Char → Option (Nat × Nat × Nat))
    (cb : List Char → List Char → List Char → List Char) :
    Nat → List Char → List Char
  | 0, l => l
  | _ + 1, [] => []
  | fuel + 1, c :: rest =>
    match try1 (c :: rest) with
    | some (a, b, g) =>
      if a + b + g = 0 then c :: runReplF try1 cb fuel rest
      else
        cb ((c :: rest).take a) (((c :: rest).drop a).take b)
            ((((c :: rest).drop a).drop b).take g)
          ++ runReplF try1 cb fuel ((c :: rest).drop (a + b + g))
    | none => c :: runReplF try1 cb fuel rest

def runRepl (try1 : List Char → Option (Nat × Nat × Nat))
    (cb : List Char → List Char → List Char → List Char) (l : List Char) :
    List Char :=
  runReplF try1 cb (l.length + 1) l

/-- As `runRepl`, for callbacks that can throw (part_000 has no `try`/`catch`
around `new URL`, so a throwing callback aborts the whole replace). -/
def runReplOF (try1 : List Char → Option (Nat × Nat × Nat))
    (cb : List Char → List Char → List Char → Option (List Char)) :
    Nat → List Char → Option (List Char)
  | 0, l => some l
  | _ + 1, [] => some []
  | fuel + 1, c :: rest =>
    match try1 (c :: rest) with
    | some (a, b, g) =>
      if a + b + g = 0 then (runReplOF try1 cb fuel rest).map (fun r => c :: r)
      else
        match cb ((c :: rest).take a) (((c :: rest).drop a).take b)
            ((((c :: rest).drop a).drop b).take g) with
        | none => none
        | some r =>
          match runReplOF try1 cb fuel ((c :: rest).drop (a + b + g)) with
          | none => none
          | some r2 => some (r ++ r2)
    | none => (runReplOF try1 cb fuel rest).map (fun r => c :: r)

def runReplO (try1 : List Char → Option (Nat × Nat × Nat))
    (cb : List Char → List Char → List Char → Option (List Char))
    (l : List Char) : Option (List Char) :=
  runReplOF try1 cb (l.length + 1) l

/-! ### rewriteHtml (src/edge-function.js, lines 239-315) -/

def proxMark : List Char := "/proxy?url=".data
def sData : List Char := "data:".data
def sHttpSl : List Char := "http://".data
def sHttpsSl : List Char := "https://".data
def sSl2 : List Char := "//".data
def sHttpsC : List Char := "https:".data

/-- `` `${before}${proxyOrigin}/proxy?url=${encodeURIComponent(u)}${after}` `` -/
def wrapRef (origin g1 g3 u : List Char) : List Char :=
  g1 ++ origin ++ proxMark ++ encodeURIComponent u ++ g3

/-- The `src` replacement callback of edge-function.js (lines 251-281). -/
def cbSrcE (origin baseStr g1 g2 g3 : List Char) : List Char :=
  if jsIncludes g2 proxMark then g1 ++ g2 ++ g3
  else if List.isPrefixOf sData g2 then g1 ++ g2 ++ g3
  else if List.isPrefixOf sHttpSl g2 ∨ List.isPrefixOf sHttpsSl g2 then
    wrapRef origin g1 g3 g2
  else if List.isPrefixOf sSl2 g2 then wrapRef origin g1 g3 (sHttpsC ++ g2)
  else if List.isPrefixOf ['/'] g2 then wrapRef origin g1 g3 (baseStr ++ g2)
  else
    match resolveStr g2 baseStr with
    | some u => wrapRef origin g1 g3 u
    | none => g1 ++ g2 ++ g3

/-- The `<link>` `href` replacement callback of edge-function.js
(lines 286-311); unlike the `src` callback it has no `data:` exemption. -/
def cbHrefE (origin baseStr g1 g2 g3 : List Char) : List Char :=
  if jsIncludes g2 proxMark then g1 ++ g2 ++ g3
  else if List.isPrefixOf sHttpSl g2 ∨ List.isPrefixOf sHttpsSl g2 then
    wrapRef origin g1 g3 g2
  else if List.isPrefixOf sSl2 g2 then wrapRef origin g1 g3 (sHttpsC ++ g2)
  else if List.isPrefixOf ['/'] g2 then wrapRef origin g1 g3 (baseStr ++ g2)
  else
    match resolveStr g2 baseStr with
    | some u => wrapRef origin g1 g3 u
    | none => g1 ++ g2 ++ g3

/-- `rewriteHtml` of edge-function.js for an already-parsed target. -/
def rewriteHtmlCoreE (html : List Char) (t : UrlRec) (origin : List Char) :
    List Char :=
  let baseStr := baseStrOf t
  runRepl (tryAttr linkTags hrefEq) (cbHrefE origin baseStr)
    (runRepl (tryAttr srcTags srcEq) (cbSrcE origin baseStr) html)

/-- `rewriteHtml(html, targetUrl, proxyOrigin)` of edge-function.js; `none`
models the throw of `new URL(targetUrl)` on line 240. -/
def rewriteHtmlE (html targetUrl origin : List Char) : Option (List Char) :=
  (parseAbs targetUrl).map (fun t => rewriteHtmlCoreE html t origin)

/-! ### rewriteHtml (src/unnamed/part_000, lines 138-186)

Its callbacks call `new URL` without `try`/`catch`, so a parse failure
propagates (`Option.none`) and aborts the whole rewrite. -/

/-- part_000's `src` callback (lines 152-158): absolute `http(s)://` and
`data:` values are wrapped directly, everything else is resolved first. -/
def cbSrcP (origin baseStr g1 g2 g3 : List Char) : Option (List Char) :=
  if List.isPrefixOf sHttpSl g2 ∨ List.isPrefixOf sHttpsSl g2 ∨
      List.isPrefixOf sData g2 then
    some (wrapRef origin g1 g3 g2)
  else (resolveStr g2 baseStr).map (wrapRef origin g1 g3)

/-- part_000's `a`/`link` `href` callback (lines 163-172). -/
def cbHrefP (origin baseStr g1 g2 g3 : List Char) : Option (List Char) :=
  if List.isPrefixOf ['#'] g2 ∨ List.isPrefixOf ("javascript:".data) g2 ∨
      List.isPrefixOf ("mailto:".data) g2 ∨ List.isPrefixOf ("tel:".data) g2 then
    some (g1 ++ g2 ++ g3)
  else if List.isPrefixOf sHttpSl g2 ∨ List.isPrefixOf sHttpsSl g2 then
    some (wrapRef origin g1 g3 g2)
  else (resolveStr g2 baseStr).map (wrapRef origin g1 g3)

/-- part_000's `<base>` callback (lines 146-148): the replacement is rebuilt
with fixed spacing and double quotes. -/
def cbBaseP (origin baseStr _g1 g2 _g3 : List Char) : Option (List Char) :=
  (resolveStr g2 baseStr).map
    (fun u => "<base href=\"".data ++ origin ++ proxMark ++
      encodeURIComponent u ++ ['"'])

/-- part_000's CSS `url()` callback (lines 176-183): note that `data:` (and
absolute) values are wrapped, not skipped. -/
def cbCssP (origin baseStr _g1 g2 _g3 : List Char) : Option (List Char) :=
  if List.isPrefixOf sHttpSl g2 ∨ List.isPrefixOf sHttpsSl g2 ∨
      List.isPrefixOf sData g2 then
    some ("url(\"".data ++ origin ++ proxMark ++ encodeURIComponent g2 ++ "\")".data)
  else (resolveStr g2 baseStr).map
    (fun u => "url(\"".data ++ origin ++ proxMark ++ encodeURIComponent u ++ "\")".data)

/-- part_000's `rewriteHtml` for an already-parsed target: the `<base>`,
`src`, `href`, and CSS passes in source order. -/
def rewriteHtmlCoreP (html : List Char) (t : UrlRec) (origin : List Char) :
    Option (List Char) :=
  let baseStr := baseStrOf t
  match runReplO tryBase (cbBaseP origin baseStr) html with
  | none => none
  | some h1 =>
    match runReplO (tryAttr srcTags srcEq) (cbSrcP origin baseStr) h1 with
    | none => none
    | some h2 =>
      match runReplO (tryAttr aLinkTags hrefEq) (cbHrefP origin baseStr) h2 with
      | none => none
      | some h3 => runReplO tryCss (cbCssP origin baseStr) h3

/-- part_000's `rewriteHtml(html, targetUrl, proxyOrigin)`. -/
def rewriteHtmlP (html targetUrl origin : List Char) : Option (List Char) :=
  match parseAbs targetUrl with
  | none => none
  | some t => rewriteHtmlCoreP html t origin

/-! ### Headers (`new Headers`) and createProxyHeaders
(src/edge-function.js, lines 201-234)

`Headers` is modelled as an association list with lower-cased (per the
Fetch spec) unique keys; only lookup semantics are relied on, not
serialization order. -/

abbrev HList := List (List Char × List Char)

def hKey (n : List Char) : List Char := n.map lowerC

def hget : HList → List Char → Option (List Char)
  | [], _ => none
  | p :: t, n => if p.1 = hKey n then some p.2 else hget t n

def hdel : HList → List Char → HList
  | [], _ => []
  | p :: t, n => if p.1 = hKey n then hdel t n else p :: hdel t n

def hset (h : HList) (n v : List Char) : HList := (hKey n, v) :: hdel h n

def hhas (h : HList) (n : List Char) : Bool := (hget h n).isSome

def allowedHeaders : List (List Char) :=
  ["accept".data, "accept-language".data, "accept-encoding".data,
   "content-type".data, "user-agent".data, "cache-control".data]

def defaultUA : List Char :=
  "Mozilla/5.0 (Windows NT 10.0; Win64; x64) AppleWebKit/537.36 (KHTML, like Gecko) Chrome/120.0.0.0 Safari/537.36".data

def defaultAL : List Char := "en-US,en;q=0.9".data

def hostN : List Char := "host".data
def uaN : List Char := "user-agent".data
def alN : List Char := "accept-language".data

/-- One iteration of the copy loop (lines 214-218). -/
def stepH (acc : HList) (p : List Char × List Char) : HList :=
  if allowedHeaders.contains (hKey p.1) then hset acc p.1 p.2 else acc

/-- `createProxyHeaders(originalHeaders, targetHost)` of edge-function.js:
copy the allow-listed headers, set `Host`, default `User-Agent` and
`Accept-Language` when absent.  (part_000's variant, lines 105-133, is
identical except that it lacks the `Accept-Language` default.) -/
def createProxyHeaders (orig : HList) (targetHost : List Char) : HList :=
  let h0 := orig.foldl stepH []
  let h1 := hset h0 hostN targetHost
  let h2 := if hhas h1 uaN then h1 else hset h1 uaN defaultUA
  if hhas h2 alN then h2 else hset h2 alN defaultAL

/-- Latest (JavaScript `Headers.set` overwrites) value in `orig` whose key
matches `n` case-insensitively; specification-side helper. -/
def lastGet : HList → List Char → Option (List Char)
  | [], _ => none
  | p :: rest, n =>
    match lastGet rest n with
    | some v => some v
    | none => if hKey p.1 = hKey n then some p.2 else none

/-- The outbound header map as the specification describes it: exactly the
allow-listed inbound headers, `Host` set unconditionally, default
`User-Agent`/`Accept-Language` only when absent. -/
def specProxyHeaders (orig : HList) (host n : List Char) : Option (List Char) :=
  if hKey n = hostN then some host
  else if ¬ allowedHeaders.contains (hKey n) then none
  else if hKey n = uaN then some ((lastGet orig n).getD defaultUA)
  else if hKey n = alN then some ((lastGet orig n).getD defaultAL)
  else lastGet orig n

/-! ### handleProxyRequest (src/edge-function.js, lines 25-196)

The single outbound `fetch` is abstracted by a `FetchRes` parameter (the
upstream's behaviour); the second component of the result counts how many
forwarding calls were dispatched.  `FetchRes.timeout` is the `AbortError`
raised when the 30-second `setTimeout` fires `controller.abort()`;
`FetchRes.fail` is any other fetch rejection, with its message. -/

inductive FetchRes where
  | ok (status : Nat) (statusText : List Char) (headers : HList) (body : List Char)
  | timeout
  | fail (msg : List Char)

structure Resp where
  status : Nat
  headers : HList
  body : List Char
deriving DecidableEq

def ctN : List Char := "content-type".data
def plainV : List Char := "text/plain; charset=utf-8".data
def plainCT : HList := [(ctN, plainV)]
def clN : List Char := "content-length".data

def msgMissing : List Char := "缺少目标 URL 参数".data
def msgScheme : List Char := "不支持的协议类型".data
def msgTimeout : List Char :=
  "请求超时：目标网站响应时间过长，可能该网站在当前网络环境下无法访问".data
def msgFailP : List Char := "代理请求失败: ".data
/-- The platform's `new URL` TypeError message, modelled. -/
def invalidUrlMsg : List Char := "Invalid URL".data
def msg502a : List Char := "无法访问目标网站：".data
def msg502b : List Char :=
  "\n\n可能原因：\n1. 目标网站在 ESA 边缘节点的网络环境下无法访问\n2. 目标网站响应超时\n3. 目标网站拒绝了代理请求\n\n提示：某些网站（如 Google）可能在国内 ESA 节点无法直接访问。".data

/-- Response-header sanitization (lines 78-87): add the three CORS headers,
delete `Content-Security-Policy` and `X-Frame-Options`. -/
def sanitizeHeaders (hs : HList) : HList :=
  hdel
    (hdel
      (hset
        (hset (hset hs ("access-control-allow-origin".data) ("*".data))
          ("access-control-allow-methods".data) ("GET, POST, PUT, DELETE, OPTIONS".data))
        ("access-control-allow-headers".data) ("*".data))
      ("content-security-policy".data))
    ("x-frame-options".data)

/-- The script template of edge-function.js lines 98-157, part before
`${url.origin}`. -/
def injA : String :=
  "\n          <script>\n            // 拦截所有导航，将相对路径和绝对路径都通过代理\n            (function() \x7b\n              const proxyOrigin = \x27"

/-- Between `${url.origin}` and `${baseUrl}`. -/
def injB : String :=
  "\x27;\n              const targetOrigin = \x27"

/-- After `${baseUrl}`. -/
def injC : String :=
  "\x27;\n              \n              // 拦截 History API\n              const originalPushState = history.pushState;\n              const originalReplaceState = history.replaceState;\n              \n              history.pushState = function() \x7b\n                const result = originalPushState.apply(this, arguments);\n                // 阻止实际的导航\n                return result;\n              \x7d;\n              \n              history.replaceState = function() \x7b\n                const result = originalReplaceState.apply(this, arguments);\n                // 阻止实际的导航\n                return result;\n              \x7d;\n              \n              // 拦截链接点击\n              document.addEventListener(\x27click\x27, function(e) \x7b\n                const link = e.target.closest(\x27a\x27);\n                if (link && link.href) \x7b\n                  const href = link.href;\n                  // 如果是指向原始域名的链接，转换为代理链接\n                  if (href.startsWith(targetOrigin)) \x7b\n                    e.preventDefault();\n                    window.location.href = proxyOrigin + \x27/proxy?url=\x27 + encodeURIComponent(href);\n                  \x7d else if (!href.startsWith(proxyOrigin) && !href.startsWith(\x27javascript:\x27) && !href.startsWith(\x27#\x27) && !href.startsWith(\x27mailto:\x27)) \x7b\n                    // 其他外部链接也通过代理\n                    if (href.startsWith(\x27http://\x27) || href.startsWith(\x27https://\x27)) \x7b\n                      e.preventDefault();\n                      window.location.href = proxyOrigin + \x27/proxy?url=\x27 + encodeURIComponent(href);\n                    \x7d\n                  \x7d\n                \x7d\n              \x7d, true);\n              \n              // 修复表单提交\n              document.addEventListener(\x27submit\x27, function(e) \x7b\n                const form = e.target;\n                if (form.action) \x7b\n                  const action = form.action;\n                  if (action.startsWith(targetOrigin) || (action.startsWith(\x27/\x27) && !action.startsWith(\x27/proxy\x27))) \x7b\n                    e.preventDefault();\n                    const fullAction = action.startsWith(\x27/\x27) ? targetOrigin + action : action;\n                    const formData = new FormData(form);\n                    const params = new URLSearchParams(formData);\n                    const targetUrl = fullAction + (fullAction.includes(\x27?\x27) ? \x27&\x27 : \x27?\x27) + params.toString();\n                    window.location.href = proxyOrigin + \x27/proxy?url=\x27 + encodeURIComponent(targetUrl);\n                  \x7d\n                \x7d\n              \x7d, true);\n            \x7d)();\n          </script>\n        "

def headClose : List Char := "</head>".data
def htmlW : List Char := "text/html".data

/-- The injected navigation-interception script as a value (the template
with `url.origin` and `baseUrl` substituted). -/
def injectScr (origin baseStr : List Char) : List Char :=
  injA.data ++ origin ++ injB.data ++ baseStr ++ injC.data

/-- `handleProxyRequest` outcome model.  `urlParam` is the decoded `url`
query parameter (`none` when missing); `fr` describes the upstream fetch;
`origin` is `url.origin` of the inbound request.  The result is the
response together with the number of forwarding calls made. -/
def handleProxy (urlParam : Option (List Char)) (fr : FetchRes)
    (origin : List Char) : Resp × Nat :=
  match urlParam with
  | none => ({ status := 400, headers := plainCT, body := msgMissing }, 0)
  | some tu =>
    match parseAbs tu with
    | none =>
      ({ status := 500, headers := plainCT, body := msgFailP ++ invalidUrlMsg }, 0)
    | some t =>
      if ¬ (protocolOf t = "http:".data ∨ protocolOf t = "https:".data) then
        ({ status := 400, headers := plainCT, body := msgScheme }, 0)
      else
        match fr with
        | FetchRes.timeout =>
          ({ status := 504, headers := plainCT, body := msgTimeout }, 1)
        | FetchRes.fail msg =>
          if jsIncludes msg ("fetch".data) ∨ jsIncludes msg ("network".data) then
            ({ status := 502, headers := plainCT, body := msg502a ++ tu ++ msg502b }, 1)
          else ({ status := 500, headers := plainCT, body := msgFailP ++ msg }, 1)
        | FetchRes.ok st _stx hs body =>
          let hs1 := sanitizeHeaders hs
          let ct := (hget hs1 ctN).getD []
          if jsIncludes ct htmlW then
            let m := rewriteHtmlCoreE body t origin
            ({ status := st, headers := hs1,
               body := replaceFirst m headClose (injectScr origin (baseStrOf t) ++ headClose) }, 1)
          else ({ status := st, headers := hs1, body := body }, 1)

/-! ### Helper lemmas -/

theorem splitSub_none_rf (pat r : List Char) :
    ∀ l, splitSub l pat = none → replaceFirst l pat r = l := by
  intro l
  induction l with
  | nil => intro _; rfl
  | cons c rest ih =>
    intro h
    unfold splitSub at h
    unfold replaceFirst
    by_cases hp : List.isPrefixOf pat (c :: rest) = true
    · rw [if_pos hp] at h; exact absurd h (by simp)
    · rw [if_neg hp] at h
      rw [if_neg hp]
      simp only [Option.map_eq_none'] at h
      rw [ih h]

theorem splitSub_some_rf (pat r : List Char) :
    ∀ l pre suf, splitSub l pat = some (pre, suf) →
      replaceFirst l pat r = pre ++ r ++ suf := by
  intro l
  induction l with
  | nil => intro pre suf h; simp [splitSub] at h
  | cons c rest ih =>
    intro pre suf h
    unfold splitSub at h
    unfold replaceFirst
    by_cases hp : List.isPrefixOf pat (c :: rest) = true
    · rw [if_pos hp] at h
      rw [if_pos hp]
      simp only [Option.some.injEq, Prod.mk.injEq] at h
      rw [← h.1, ← h.2]
      simp
    · rw [if_neg hp] at h
      rw [if_neg hp]
      cases hsp : splitSub rest pat with
      | none => rw [hsp] at h; simp at h
      | some p =>
        rw [hsp] at h
        simp only [Option.map_some', Option.some.injEq, Prod.mk.injEq] at h
        rw [← h.1, ← h.2]
        simp [ih p.1 p.2 hsp]

theorem jsIncludes_eq_splitSub (pat : List Char) (hne : ¬ pat = []) :
    ∀ l, jsIncludes l pat = (splitSub l pat).isSome := by
  intro l
  induction l with
  | nil =>
    simp only [jsIncludes, splitSub, Option.isSome_none]
    cases pat with
    | nil => exact absurd rfl hne
    | cons a b => rfl
  | cons c rest ih =>
    unfold jsIncludes splitSub
    by_cases hp : List.isPrefixOf pat (c :: rest) = true
    · simp [hp]
    · simp only [Bool.not_eq_true] at hp
      simp [hp, ih]

theorem splitSub_min (pat : List Char) :
    ∀ l pre suf, splitSub l pat = some (pre, suf) →
      ∀ p2 s2, l = p2 ++ pat ++ s2 → pre.length ≤ p2.length := by
  intro l
  induction l with
  | nil => intro pre suf h; simp [splitSub] at h
  | cons c rest ih =>
    intro pre suf h p2 s2 hl
    unfold splitSub at h
    by_cases hp : List.isPrefixOf pat (c :: rest) = true
    · rw [if_pos hp] at h
      simp only [Option.some.injEq, Prod.mk.injEq] at h
      rw [← h.1]
      simp
    · rw [if_neg hp] at h
      cases hsp : splitSub rest pat with
      | none => rw [hsp] at h; simp at h
      | some p =>
        rw [hsp] at h
        simp only [Option.map_some', Option.some.injEq, Prod.mk.injEq] at h
        cases p2 with
        | nil =>
          exfalso
          apply hp
          rw [List.isPrefixOf_iff_prefix]
          simp only [List.nil_append] at hl
          rw [hl]
          exact List.prefix_append pat s2
        | cons d p2t =>
          simp only [List.cons_append, List.cons.injEq] at hl
          rw [← h.1]
          simp only [List.length_cons, Nat.succ_le_succ_iff]
          exact ih p.1 p.2 hsp p2t s2 hl.2

theorem hget_cons (p : List Char × List Char) (t : HList) (m : List Char) :
    hget (p :: t) m = if p.1 = hKey m then some p.2 else hget t m := rfl

theorem hget_hdel (h : HList) (n m : List Char) (hne : ¬ hKey m = hKey n) :
    hget (hdel h n) m = hget h m := by
  induction h with
  | nil => rfl
  | cons p t ih =>
    unfold hdel
    by_cases hc : p.1 = hKey n
    · have hpm : ¬ p.1 = hKey m := by
        rw [hc]; intro hh; exact hne hh.symm
      rw [if_pos hc, ih, hget_cons, if_neg hpm]
    · rw [if_neg hc, hget_cons, hget_cons, ih]

theorem hget_hset (h : HList) (n v m : List Char) :
    hget (hset h n v) m = if hKey m = hKey n then some v else hget h m := by
  unfold hset
  by_cases he : hKey m = hKey n
  · show (if hKey n = hKey m then some v else hget (hdel h n) m) = _
    rw [if_pos he.symm, if_pos he]
  · show (if hKey n = hKey m then some v else hget (hdel h n) m) = _
    rw [if_neg (fun hh => he hh.symm), if_neg he]
    exact hget_hdel h n m he

theorem lastGet_congr (n m : List Char) (he : hKey n = hKey m) :
    ∀ orig : HList, lastGet orig n = lastGet orig m := by
  intro orig
  induction orig with
  | nil => rfl
  | cons p t ih => unfold lastGet; rw [ih, he]

theorem hget_foldl_stepH :
    ∀ (orig acc : HList) (n : List Char),
      hget (orig.foldl stepH acc) n =
        if allowedHeaders.contains (hKey n) = true then
          match lastGet orig n with
          | some v => some v
          | none => hget acc n
        else hget acc n := by
  intro orig
  induction orig with
  | nil =>
    intro acc n
    by_cases hc : allowedHeaders.contains (hKey n) = true
    · rw [List.foldl_nil, if_pos hc]; rfl
    · rw [List.foldl_nil, if_neg hc]
  | cons p rest ih =>
    intro acc n
    rw [List.foldl_cons, ih (stepH acc p) n]
    have hstep : hget (stepH acc p) n =
        if allowedHeaders.contains (hKey n) = true then
          (if hKey p.1 = hKey n then some p.2 else hget acc n)
        else hget acc n := by
      unfold stepH
      by_cases hpn : hKey p.1 = hKey n
      · have h2 : hget (hset acc p.1 p.2) n = some p.2 := by
          rw [hget_hset, if_pos hpn.symm]
        rw [hpn]
        by_cases ha : allowedHeaders.contains (hKey n) = true
        · rw [if_pos ha, h2, if_pos ha, if_pos rfl]
        · rw [if_neg ha, if_neg ha]
      · by_cases ha : allowedHeaders.contains (hKey p.1) = true
        · rw [if_pos ha, hget_hset, if_neg (fun hh => hpn hh.symm)]
          by_cases hc : allowedHeaders.contains (hKey n) = true
          · rw [if_pos hc, if_neg hpn]
          · rw [if_neg hc]
        · rw [if_neg ha]
          by_cases hc : allowedHeaders.contains (hKey n) = true
          · rw [if_pos hc, if_neg hpn]
          · rw [if_neg hc]
    by_cases hc : allowedHeaders.contains (hKey n) = true
    · have hcm : hKey n ∈ allowedHeaders := by simpa using hc
      cases hl : lastGet rest n <;> by_cases hpn : hKey p.1 = hKey n <;>
        simp [hc, hcm, hl, hpn, hstep, lastGet]
    · have hcm : ¬ hKey n ∈ allowedHeaders := by simpa using hc
      cases hl : lastGet rest n <;> by_cases hpn : hKey p.1 = hKey n <;>
        simp [hc, hcm, hl, hpn, hstep, lastGet]
/-! ### Claim theorems -/

/-- C2 (amended): a missing `url` parameter and an unsupported scheme are
answered with status 400 and no forwarding call is made; an unparseable
URL string, however, is not answered with 400: the `new URL` throw is
caught by the generic handler, which answers 500 (no forwarding call
either). -/
theorem c2_status_amended (origin : List Char) (fr : FetchRes) :
    (handleProxy none fr origin =
      ({ status := 400, headers := plainCT, body := msgMissing }, 0)) ∧
    (∀ tu, parseAbs tu = none →
      handleProxy (some tu) fr origin =
        ({ status := 500, headers := plainCT, body := msgFailP ++ invalidUrlMsg }, 0)) ∧
    (∀ tu t, parseAbs tu = some t →
      ¬ (protocolOf t = "http:".data ∨ protocolOf t = "https:".data) →
      handleProxy (some tu) fr origin =
        ({ status := 400, headers := plainCT, body := msgScheme }, 0)) := by
  refine ⟨rfl, ?_, ?_⟩
  · intro tu hp
    simp only [handleProxy, hp]
  · intro tu t hp hs
    simp only [handleProxy, hp, if_pos hs]

/-- C2, counterexample: the unparseable target `"not a url"` is answered
with status 500, not 400 as the claim states. -/
theorem c2_counterexample :
    (handleProxy (some ("not a url".data)) FetchRes.timeout
        ("https://p.example".data)).1.status = 500 ∧
    ¬ (handleProxy (some ("not a url".data)) FetchRes.timeout
        ("https://p.example".data)).1.status = 400 := by
  constructor <;> decide

/-- C2, witness. -/
theorem c2_status_witness :
    handleProxy none FetchRes.timeout ("https://p.example".data) =
      ({ status := 400, headers := plainCT, body := msgMissing }, 0) ∧
    handleProxy (some ("ftp://example.org".data)) FetchRes.timeout
        ("https://p.example".data) =
      ({ status := 400, headers := plainCT, body := msgScheme }, 0) :=
  ⟨(c2_status_amended ("https://p.example".data) FetchRes.timeout).1,
   (c2_status_amended ("https://p.example".data) FetchRes.timeout).2.2
     ("ftp://example.org".data)
     (UrlRec.auth ("ftp".data) ("example.org".data) [] [] [])
     (by decide) (by decide)⟩

/-- C6: when the upstream fetch ends in the `AbortError` raised by the
30-second timer, the handler answers status 504 with the timeout-specific
plain-text message, and exactly one forwarding call was made (no retry). -/
theorem c6_timeout_504 (tu : List Char) (t : UrlRec) (origin : List Char)
    (hp : parseAbs tu = some t)
    (hs : protocolOf t = "http:".data ∨ protocolOf t = "https:".data) :
    handleProxy (some tu) FetchRes.timeout origin =
      ({ status := 504, headers := plainCT, body := msgTimeout }, 1) := by
  simp only [handleProxy, hp, if_neg (not_not_intro hs)]

/-- C6, witness. -/
theorem c6_timeout_504_witness :
    handleProxy (some ("https://example.com/".data)) FetchRes.timeout
        ("https://p.example".data) =
      ({ status := 504, headers := plainCT, body := msgTimeout }, 1) :=
  c6_timeout_504 ("https://example.com/".data)
    (UrlRec.auth ("https".data) ("example.com".data) ("/".data) [] [])
    ("https://p.example".data) (by decide) (Or.inr (by decide))

set_option maxRecDepth 4000 in
/-- C5 (code bug): on an upstream `text/html` response carrying
`Content-Length: 39` (the true byte length of its body), the handler
rewrites the body — its length changes — yet the `Content-Length` header
is passed through unchanged, contradicting the specification's requirement
that it be removed or recalculated. -/
theorem c5_content_length_bug :
    (hget (handleProxy (some ("https://example.com/".data))
        (FetchRes.ok 200 []
          [(ctN, "text/html".data), (clN, "39".data)]
          ("<html><head></head><body></body></html>".data))
        ("https://p.example".data)).1.headers clN = some ("39".data)) ∧
    ¬ ((handleProxy (some ("https://example.com/".data))
        (FetchRes.ok 200 []
          [(ctN, "text/html".data), (clN, "39".data)]
          ("<html><head></head><body></body></html>".data))
        ("https://p.example".data)).1.body.length = 39) ∧
    ("<html><head></head><body></body></html>".data).length = 39 := by
  refine ⟨by decide, ?_, by decide⟩
  have hb : (handleProxy (some ("https://example.com/".data))
        (FetchRes.ok 200 []
          [(ctN, "text/html".data), (clN, "39".data)]
          ("<html><head></head><body></body></html>".data))
        ("https://p.example".data)).1.body =
      replaceFirst
        (rewriteHtmlCoreE ("<html><head></head><body></body></html>".data)
          (UrlRec.auth ("https".data) ("example.com".data) ("/".data) [] [])
          ("https://p.example".data))
        headClose
        (injectScr ("https://p.example".data)
          (baseStrOf (UrlRec.auth ("https".data) ("example.com".data) ("/".data) [] []))
          ++ headClose) := rfl
  have hm : rewriteHtmlCoreE ("<html><head></head><body></body></html>".data)
      (UrlRec.auth ("https".data) ("example.com".data) ("/".data) [] [])
      ("https://p.example".data) = "<html><head></head><body></body></html>".data := by
    decide
  have hsp : splitSub ("<html><head></head><body></body></html>".data) headClose =
      some ("<html><head>".data, "<body></body></html>".data) := by decide
  rw [hb, hm, splitSub_some_rf headClose _ _ _ _ hsp]
  unfold injectScr
  simp only [List.length_append]
  have e1 : ("<html><head>".data).length = 12 := by decide
  have e2 : ("<body></body></html>".data).length = 20 := by decide
  have e3 : headClose.length = 7 := by decide
  have e4 : (injA.data).length = 119 := by decide
  have e5 : (injB.data).length = 39 := by decide
  have e6 : ("https://p.example".data).length = 17 := by decide
  have e7 : (baseStrOf (UrlRec.auth ("https".data) ("example.com".data)
      ("/".data) [] [])).length = 19 := by decide
  rw [e1, e2, e3, e4, e5, e6, e7]
  omega

/-- C8: for every inbound header map and target host, the outbound headers
built by `createProxyHeaders` are exactly as specified: the allow-listed
inbound entries (case-insensitively matched, later duplicates winning as
`Headers.set` overwrites), all others dropped, `Host` set to the target
host unconditionally, and the default `User-Agent`/`Accept-Language`
present exactly when no inbound one survived. -/
theorem c8_header_allowlist (orig : HList) (host n : List Char) :
    hget (createProxyHeaders orig host) n = specProxyHeaders orig host n := by
  have h0get : ∀ m, hget (orig.foldl stepH []) m =
      if allowedHeaders.contains (hKey m) = true then lastGet orig m else none := by
    intro m
    rw [hget_foldl_stepH]
    by_cases hc : allowedHeaders.contains (hKey m) = true
    · rw [if_pos hc, if_pos hc]
      cases lastGet orig m <;> rfl
    · rw [if_neg hc, if_neg hc]
      rfl
  have hBua : hget (hset (orig.foldl stepH []) hostN host) uaN = lastGet orig uaN := by
    rw [hget_hset, if_neg (by decide), h0get, if_pos (by decide)]
  have hBal : hget (hset (orig.foldl stepH []) hostN host) alN = lastGet orig alN := by
    rw [hget_hset, if_neg (by decide), h0get, if_pos (by decide)]
  have hBn : ∀ m, hget (hset (orig.foldl stepH []) hostN host) m =
      if hKey m = hostN then some host
      else if allowedHeaders.contains (hKey m) = true then lastGet orig m else none := by
    intro m
    rw [hget_hset, h0get]
    simp only [show hKey hostN = hostN from by decide]
  unfold createProxyHeaders specProxyHeaders
  simp only [hhas]
  cases hu : lastGet orig uaN with
  | some v =>
    simp only [hBua, hu]
    simp only [Option.isSome_some, if_true]
    cases ha : lastGet orig alN with
    | some w =>
      simp only [hBal, ha]
      simp only [Option.isSome_some, if_true, hBn n]
      by_cases h1 : hKey n = hostN
      · rw [if_pos h1, if_pos h1]
      · rw [if_neg h1, if_neg h1]
        by_cases h2 : allowedHeaders.contains (hKey n) = true
        · rw [if_pos h2]
          have h2m : ¬ ¬ allowedHeaders.contains (hKey n) = true := not_not_intro h2
          rw [if_neg h2m]
          by_cases h3 : hKey n = uaN
          · rw [if_pos h3, lastGet_congr n uaN (by rw [h3]; decide), hu]
            rfl
          · rw [if_neg h3]
            by_cases h4 : hKey n = alN
            · rw [if_pos h4, lastGet_congr n alN (by rw [h4]; decide), ha]
              rfl
            · rw [if_neg h4]
        · rw [if_neg h2, if_pos (by simpa using h2)]
    | none =>
      simp only [hBal, ha]
      simp only [Option.isSome_none, Bool.false_eq_true, if_false]
      rw [hget_hset]
      simp only [show hKey alN = alN from by decide]
      by_cases h4 : hKey n = alN
      · rw [if_pos h4, if_neg (show ¬ hKey n = hostN by rw [h4]; decide),
          if_neg (show ¬ ¬ allowedHeaders.contains (hKey n) = true by rw [h4]; decide),
          if_neg (show ¬ hKey n = uaN by rw [h4]; decide),
          if_pos h4, lastGet_congr n alN (by rw [h4]; decide), ha]
        rfl
      · rw [if_neg h4, hBn n]
        by_cases h1 : hKey n = hostN
        · rw [if_pos h1, if_pos h1]
        · rw [if_neg h1, if_neg h1]
          by_cases h2 : allowedHeaders.contains (hKey n) = true
          · rw [if_pos h2]
            have h2m : ¬ ¬ allowedHeaders.contains (hKey n) = true := not_not_intro h2
            rw [if_neg h2m]
            by_cases h3 : hKey n = uaN
            · rw [if_pos h3, lastGet_congr n uaN (by rw [h3]; decide), hu]
              rfl
            · rw [if_neg h3, if_neg h4]
          · rw [if_neg h2, if_pos (by simpa using h2)]
  | none =>
    simp only [hBua, hu]
    simp only [Option.isSome_none, Bool.false_eq_true, if_false]
    have hCal : hget (hset (hset (orig.foldl stepH []) hostN host) uaN defaultUA) alN =
        lastGet orig alN := by
      rw [hget_hset, if_neg (by decide), hBal]
    have hCn : ∀ m, hget (hset (hset (orig.foldl stepH []) hostN host) uaN defaultUA) m =
        if hKey m = uaN then some defaultUA
        else if hKey m = hostN then some host
        else if allowedHeaders.contains (hKey m) = true then lastGet orig m else none := by
      intro m
      rw [hget_hset, hBn m]
      simp only [show hKey uaN = uaN from by decide]
    cases ha : lastGet orig alN with
    | some w =>
      simp only [hCal, ha]
      simp only [Option.isSome_some, if_true, hCn n]
      by_cases h3 : hKey n = uaN
      · rw [if_pos h3, if_neg (show ¬ hKey n = hostN by rw [h3]; decide),
          if_neg (show ¬ ¬ allowedHeaders.contains (hKey n) = true by rw [h3]; decide),
          if_pos h3, lastGet_congr n uaN (by rw [h3]; decide), hu]
        rfl
      · rw [if_neg h3]
        by_cases h1 : hKey n = hostN
        · rw [if_pos h1, if_pos h1]
        · rw [if_neg h1, if_neg h1]
          by_cases h2 : allowedHeaders.contains (hKey n) = true
          · rw [if_pos h2]
            have h2m : ¬ ¬ allowedHeaders.contains (hKey n) = true := not_not_intro h2
            rw [if_neg h2m, if_neg h3]
            by_cases h4 : hKey n = alN
            · rw [if_pos h4, lastGet_congr n alN (by rw [h4]; decide), ha]
              rfl
            · rw [if_neg h4]
          · rw [if_neg h2, if_pos (by simpa using h2)]
    | none =>
      simp only [hCal, ha]
      simp only [Option.isSome_none, Bool.false_eq_true, if_false]
      rw [hget_hset]
      simp only [show hKey alN = alN from by decide]
      by_cases h4 : hKey n = alN
      · rw [if_pos h4, if_neg (show ¬ hKey n = hostN by rw [h4]; decide),
          if_neg (show ¬ ¬ allowedHeaders.contains (hKey n) = true by rw [h4]; decide),
          if_neg (show ¬ hKey n = uaN by rw [h4]; decide),
          if_pos h4, lastGet_congr n alN (by rw [h4]; decide), ha]
        rfl
      · rw [if_neg h4, hCn n]
        by_cases h3 : hKey n = uaN
        · rw [if_pos h3, if_neg (show ¬ hKey n = hostN by rw [h3]; decide),
            if_neg (show ¬ ¬ allowedHeaders.contains (hKey n) = true by rw [h3]; decide),
            if_pos h3, lastGet_congr n uaN (by rw [h3]; decide), hu]
          rfl
        · rw [if_neg h3]
          by_cases h1 : hKey n = hostN
          · rw [if_pos h1, if_pos h1]
          · rw [if_neg h1, if_neg h1]
            by_cases h2 : allowedHeaders.contains (hKey n) = true
            · rw [if_pos h2]
              have h2m : ¬ ¬ allowedHeaders.contains (hKey n) = true := not_not_intro h2
              rw [if_neg h2m, if_neg h3, if_neg h4]
            · rw [if_neg h2, if_pos (by simpa using h2)]

set_option maxRecDepth 8000 in
/-- C1, counterexample: part_000's `rewriteHtml` is not idempotent — a
second application re-wraps the already-proxied `src` URL produced by the
first one (it has no `/proxy?url=` guard). -/
theorem c1_counterexample :
    ¬ ((rewriteHtmlP ("<img src=\"http://a.com/x\">".data)
          ("https://t.example/".data) ("https://p.example".data)).bind
        (fun d => rewriteHtmlP d ("https://t.example/".data) ("https://p.example".data)) =
      rewriteHtmlP ("<img src=\"http://a.com/x\">".data)
        ("https://t.example/".data) ("https://p.example".data)) := by
  decide

set_option maxRecDepth 8000 in
/-- C1 (amended): edge-function.js's per-reference callbacks leave any
reference containing the literal `/proxy?url=` unchanged (so a second run
is a no-op on references the first run wrapped), and its `rewriteHtml` is
idempotent on a document exercising both the `src` and `link`-`href`
passes; part_000's `rewriteHtml` has no such guard and is not idempotent. -/
theorem c1_idempotence_amended :
    (∀ origin baseStr g1 g2 g3, jsIncludes g2 proxMark = true →
      cbSrcE origin baseStr g1 g2 g3 = g1 ++ g2 ++ g3 ∧
      cbHrefE origin baseStr g1 g2 g3 = g1 ++ g2 ++ g3) ∧
    ((rewriteHtmlE ("<img src=\"/a.png\"><link href=\"x/y.css\">".data)
          ("https://t.example/d/e.html".data) ("https://p.example".data)).bind
        (fun d => rewriteHtmlE d ("https://t.example/d/e.html".data)
          ("https://p.example".data)) =
      rewriteHtmlE ("<img src=\"/a.png\"><link href=\"x/y.css\">".data)
        ("https://t.example/d/e.html".data) ("https://p.example".data)) := by
  refine ⟨?_, by decide⟩
  intro origin baseStr g1 g2 g3 h
  constructor
  · unfold cbSrcE
    rw [if_pos h]
  · unfold cbHrefE
    rw [if_pos h]

/-- C1, witness. -/
theorem c1_idempotence_witness :
    cbSrcE ("https://p.example".data) ("https://t.example".data)
        ("<img src=\"".data) ("https://p.example/proxy?url=x".data) ['"'] =
      "<img src=\"".data ++ "https://p.example/proxy?url=x".data ++ ['"'] :=
  (c1_idempotence_amended.1 ("https://p.example".data) ("https://t.example".data)
    ("<img src=\"".data) ("https://p.example/proxy?url=x".data) ['"'] (by decide)).1

set_option maxRecDepth 8000 in
/-- C3, counterexample: for the `http` target `http://example.com/`, the
protocol-relative reference `//cdn.example/x.js` is wrapped with the
hard-coded `https:` scheme, not with the target's `http:` scheme as
standard resolution against the target's base would give. -/
theorem c3_counterexample :
    rewriteHtmlE ("<img src=\"//cdn.example/x.js\">".data)
        ("http://example.com/".data) ("https://p.example".data) =
      some ("<img src=\"https://p.example/proxy?url=https%3A%2F%2Fcdn.example%2Fx.js\">".data) ∧
    ¬ ("<img src=\"https://p.example/proxy?url=https%3A%2F%2Fcdn.example%2Fx.js\">".data =
       "<img src=\"https://p.example/proxy?url=http%3A%2F%2Fcdn.example%2Fx.js\">".data) := by
  constructor <;> decide

set_option maxRecDepth 8000 in
/-- C3 (amended): the two `rewriteHtml` implementations differ.  In
edge-function.js's `src` callback a root-relative reference is prefixed
with the target's `scheme://host` base string, a document-relative one is
resolved against that base by standard relative resolution, but a
protocol-relative `//` reference is prefixed with the literal string
`https:` regardless of the target's scheme; each result is wrapped as
`{origin}/proxy?url={percent-encoded}`.  part_000's `src` callback instead
resolves every non-absolute (and non-`data:`) reference — document-,
root-, and protocol-relative alike — via `new URL` against the same base,
inheriting the target's scheme, and so satisfies the claim as originally
stated (shown end-to-end for `//cdn.example/x.js` against the target
`http://example.com/`, which wraps `http%3A%2F%2Fcdn.example%2Fx.js`).
The claim's own example holds in both: for target
`https://example.com/a/b.html` the reference `../c.png` becomes
`{origin}/proxy?url=https%3A%2F%2Fexample.com%2Fc.png`. -/
theorem c3_resolution_amended :
    (∀ origin baseStr g1 g2 g3,
      jsIncludes g2 proxMark = false →
      List.isPrefixOf sData g2 = false →
      List.isPrefixOf sHttpSl g2 = false →
      List.isPrefixOf sHttpsSl g2 = false →
      (List.isPrefixOf sSl2 g2 = true →
        cbSrcE origin baseStr g1 g2 g3 =
          g1 ++ origin ++ proxMark ++ encodeURIComponent (sHttpsC ++ g2) ++ g3) ∧
      (List.isPrefixOf sSl2 g2 = false → List.isPrefixOf ['/'] g2 = true →
        cbSrcE origin baseStr g1 g2 g3 =
          g1 ++ origin ++ proxMark ++ encodeURIComponent (baseStr ++ g2) ++ g3) ∧
      (∀ u, List.isPrefixOf sSl2 g2 = false → List.isPrefixOf ['/'] g2 = false →
        resolveStr g2 baseStr = some u →
        cbSrcE origin baseStr g1 g2 g3 =
          g1 ++ origin ++ proxMark ++ encodeURIComponent u ++ g3)) ∧
    (rewriteHtmlE ("<img src=\"../c.png\">".data)
        ("https://example.com/a/b.html".data) ("https://p.example".data) =
      some ("<img src=\"https://p.example/proxy?url=https%3A%2F%2Fexample.com%2Fc.png\">".data)) ∧
    (∀ origin baseStr g1 g2 g3 u,
      List.isPrefixOf sHttpSl g2 = false →
      List.isPrefixOf sHttpsSl g2 = false →
      List.isPrefixOf sData g2 = false →
      resolveStr g2 baseStr = some u →
      cbSrcP origin baseStr g1 g2 g3 =
        some (g1 ++ origin ++ proxMark ++ encodeURIComponent u ++ g3)) ∧
    (rewriteHtmlP ("<img src=\"//cdn.example/x.js\">".data)
        ("http://example.com/".data) ("https://p.example".data) =
      some ("<img src=\"https://p.example/proxy?url=http%3A%2F%2Fcdn.example%2Fx.js\">".data)) ∧
    (rewriteHtmlP ("<img src=\"../c.png\">".data)
        ("https://example.com/a/b.html".data) ("https://p.example".data) =
      some ("<img src=\"https://p.example/proxy?url=https%3A%2F%2Fexample.com%2Fc.png\">".data)) := by
  refine ⟨?_, by decide, ?_, by decide, by decide⟩
  · intro origin baseStr g1 g2 g3 h1 h2 h3 h4
    refine ⟨?_, ?_, ?_⟩
    · intro h5
      simp only [cbSrcE, wrapRef, h1, h2, h3, h4, h5]
      simp
    · intro h5 h6
      simp only [cbSrcE, wrapRef, h1, h2, h3, h4, h5, h6]
      simp
    · intro u h5 h6 h7
      simp only [cbSrcE, wrapRef, h1, h2, h3, h4, h5, h6, h7]
      simp
  · intro origin baseStr g1 g2 g3 u h1 h2 h3 h4
    simp only [cbSrcP, h1, h2, h3, h4]
    simp [wrapRef]

/-- C3, witness. -/
theorem c3_resolution_witness :
    cbSrcE ("https://p.example".data) ("http://example.com".data)
        ("<img src=\"".data) ("//cdn.example/x.js".data) ['"'] =
      "<img src=\"".data ++ "https://p.example".data ++ proxMark ++
        encodeURIComponent (sHttpsC ++ "//cdn.example/x.js".data) ++ ['"'] :=
  ((c3_resolution_amended.1 ("https://p.example".data) ("http://example.com".data)
      ("<img src=\"".data) ("//cdn.example/x.js".data) ['"']
      (by decide) (by decide) (by decide) (by decide)).1 (by decide))

set_option maxRecDepth 8000 in
/-- C4, counterexample: part_000's `src` callback wraps `data:` URIs rather
than leaving them untouched. -/
theorem c4_counterexample :
    rewriteHtmlP ("<img src=\"data:image/png;base64,AA\">".data)
        ("https://t.example/".data) ("https://p.example".data) =
      some ("<img src=\"https://p.example/proxy?url=data%3Aimage%2Fpng%3Bbase64%2CAA\">".data) ∧
    ¬ ("<img src=\"https://p.example/proxy?url=data%3Aimage%2Fpng%3Bbase64%2CAA\">".data =
       "<img src=\"data:image/png;base64,AA\">".data) := by
  constructor <;> decide

set_option maxRecDepth 8000 in
/-- C4 (amended): in edge-function.js's `src` pass a value starting with
`data:` is always returned byte-identical; the other reference kinds
(part_000's `src`/`href`/CSS handlers, and edge-function.js's `link`-`href`
pass) have no such exemption. -/
theorem c4_data_amended :
    (∀ origin baseStr g1 g2 g3, List.isPrefixOf sData g2 = true →
      cbSrcE origin baseStr g1 g2 g3 = g1 ++ g2 ++ g3) ∧
    (rewriteHtmlE ("<img src=\"data:image/png;base64,AA\"><img src=\"/a.png\">".data)
        ("https://t.example/".data) ("https://p.example".data) =
      some ("<img src=\"data:image/png;base64,AA\"><img src=\"https://p.example/proxy?url=https%3A%2F%2Ft.example%2Fa.png\">".data)) := by
  refine ⟨?_, by decide⟩
  intro origin baseStr g1 g2 g3 h
  unfold cbSrcE
  by_cases hj : jsIncludes g2 proxMark = true
  · rw [if_pos hj]
  · rw [if_neg hj, if_pos h]

/-- C4, witness. -/
theorem c4_data_witness :
    cbSrcE ("https://p.example".data) ("https://t.example".data)
        ("<img src=\"".data) ("data:image/png;base64,AA".data) ['"'] =
      "<img src=\"".data ++ "data:image/png;base64,AA".data ++ ['"'] :=
  c4_data_amended.1 ("https://p.example".data) ("https://t.example".data)
    ("<img src=\"".data) ("data:image/png;base64,AA".data) ['"'] (by decide)

set_option maxRecDepth 8000 in
/-- C7, counterexample: a reference whose value `ws://` makes `new URL`
throw aborts part_000's whole rewrite (its callbacks have no `try`/`catch`),
so the other, well-formed reference of the document is not rewritten
either. -/
theorem c7_counterexample :
    rewriteHtmlP ("<img src=\"ws://\"><img src=\"b.png\">".data)
        ("https://t.example/".data) ("https://p.example".data) = none := by
  decide

set_option maxRecDepth 8000 in
/-- C7 (amended): in edge-function.js the `try`/`catch` of both callbacks
returns the match unchanged when URL resolution fails, and rewriting
continues: in a document with a malformed (`ws://`) and a well-formed
reference, the former stays byte-identical and the latter is still
wrapped; part_000's `rewriteHtml`, by contrast, propagates the throw. -/
theorem c7_malformed_amended :
    (∀ origin baseStr g1 g2 g3,
      jsIncludes g2 proxMark = false →
      List.isPrefixOf sData g2 = false →
      List.isPrefixOf sHttpSl g2 = false →
      List.isPrefixOf sHttpsSl g2 = false →
      List.isPrefixOf sSl2 g2 = false →
      List.isPrefixOf ['/'] g2 = false →
      resolveStr g2 baseStr = none →
      cbSrcE origin baseStr g1 g2 g3 = g1 ++ g2 ++ g3 ∧
      cbHrefE origin baseStr g1 g2 g3 = g1 ++ g2 ++ g3) ∧
    (rewriteHtmlE ("<img src=\"ws://\"><img src=\"b.png\">".data)
        ("https://t.example/".data) ("https://p.example".data) =
      some ("<img src=\"ws://\"><img src=\"https://p.example/proxy?url=https%3A%2F%2Ft.example%2Fb.png\">".data)) := by
  refine ⟨?_, by decide⟩
  intro origin baseStr g1 g2 g3 h1 h2 h3 h4 h5 h6 h7
  constructor
  · simp only [cbSrcE, h1, h2, h3, h4, h5, h6, h7]
    simp
  · simp only [cbHrefE, h1, h3, h4, h5, h6, h7]
    simp

/-- C7, witness. -/
theorem c7_malformed_witness :
    cbSrcE ("https://p.example".data) ("https://t.example".data)
        ("<img src=\"".data) ("ws://".data) ['"'] =
      "<img src=\"".data ++ "ws://".data ++ ['"'] :=
  (c7_malformed_amended.1 ("https://p.example".data) ("https://t.example".data)
    ("<img src=\"".data) ("ws://".data) ['"']
    (by decide) (by decide) (by decide) (by decide) (by decide) (by decide)
    (by decide)).1

set_option maxRecDepth 8000 in
/-- C9, counterexample: edge-function.js's `link`-`href` pass has no
anchor exemption — `<link href="#top">` is resolved against the base and
wrapped, not left byte-identical. -/
theorem c9_counterexample :
    rewriteHtmlE ("<link href=\"#top\">".data) ("https://example.com".data)
        ("https://p.example".data) =
      some ("<link href=\"https://p.example/proxy?url=https%3A%2F%2Fexample.com%2F%23top\">".data) ∧
    ¬ ("<link href=\"https://p.example/proxy?url=https%3A%2F%2Fexample.com%2F%23top\">".data =
       "<link href=\"#top\">".data) := by
  constructor <;> decide

set_option maxRecDepth 8000 in
/-- C9 (amended): part_000's `a`/`link` `href` callback leaves anchor
(`#...`), `javascript:`, `mailto:` and `tel:` values byte-identical — a
document containing all four kinds passes through its `rewriteHtml`
unchanged; edge-function.js does not process `<a>` tags at all, but its
`<link>` `href` pass applies no such exemption. -/
theorem c9_href_schemes_amended :
    (∀ origin baseStr g1 g2 g3,
      List.isPrefixOf ['#'] g2 = true ∨
        List.isPrefixOf ("javascript:".data) g2 = true ∨
        List.isPrefixOf ("mailto:".data) g2 = true ∨
        List.isPrefixOf ("tel:".data) g2 = true →
      cbHrefP origin baseStr g1 g2 g3 = some (g1 ++ g2 ++ g3)) ∧
    (rewriteHtmlP ("<a href=\"#t\"><a href=\"javascript:void(0)\"><a href=\"mailto:a@b\"><a href=\"tel:+15551234\">".data)
        ("https://t.example/".data) ("https://p.example".data) =
      some ("<a href=\"#t\"><a href=\"javascript:void(0)\"><a href=\"mailto:a@b\"><a href=\"tel:+15551234\">".data)) := by
  refine ⟨?_, by decide⟩
  intro origin baseStr g1 g2 g3 h
  unfold cbHrefP
  rw [if_pos h]

/-- C9, witness. -/
theorem c9_href_schemes_witness :
    cbHrefP ("https://p.example".data) ("https://t.example".data)
        ("<a href=\"".data) ("javascript:void(0)".data) ['"'] =
      some ("<a href=\"".data ++ "javascript:void(0)".data ++ ['"']) :=
  c9_href_schemes_amended.1 ("https://p.example".data) ("https://t.example".data)
    ("<a href=\"".data) ("javascript:void(0)".data) ['"']
    (Or.inr (Or.inl (by decide)))

/-- C10: on an HTML upstream response, the navigation-interception script
is inserted exactly when the rewritten body contains the literal
`</head>`: if it does not, the response body is the rewritten HTML with no
script; if it does, the script is placed immediately before the first
occurrence (the prefix `pre` is the shortest text preceding any
occurrence of `</head>`). -/
theorem c10_script_injection (tu : List Char) (t : UrlRec) (origin : List Char)
    (st : Nat) (stx : List Char) (hs : HList) (body : List Char)
    (hp : parseAbs tu = some t)
    (hsch : protocolOf t = "http:".data ∨ protocolOf t = "https:".data)
    (hct : jsIncludes ((hget (sanitizeHeaders hs) ctN).getD []) htmlW = true) :
    (jsIncludes (rewriteHtmlCoreE body t origin) headClose = false →
      (handleProxy (some tu) (FetchRes.ok st stx hs body) origin).1.body =
        rewriteHtmlCoreE body t origin) ∧
    (∀ pre suf,
      splitSub (rewriteHtmlCoreE body t origin) headClose = some (pre, suf) →
      (handleProxy (some tu) (FetchRes.ok st stx hs body) origin).1.body =
        pre ++ (injectScr origin (baseStrOf t) ++ headClose) ++ suf ∧
      ∀ p2 s2, rewriteHtmlCoreE body t origin = p2 ++ headClose ++ s2 →
        pre.length ≤ p2.length) := by
  have hb : (handleProxy (some tu) (FetchRes.ok st stx hs body) origin).1.body =
      replaceFirst (rewriteHtmlCoreE body t origin) headClose
        (injectScr origin (baseStrOf t) ++ headClose) := by
    simp only [handleProxy, hp, if_neg (not_not_intro hsch), if_pos hct]
  constructor
  · intro h
    have he := jsIncludes_eq_splitSub headClose (by decide)
      (rewriteHtmlCoreE body t origin)
    rw [h] at he
    have hn : splitSub (rewriteHtmlCoreE body t origin) headClose = none := by
      cases hsp : splitSub (rewriteHtmlCoreE body t origin) headClose with
      | none => rfl
      | some p => rw [hsp] at he; simp at he
    rw [hb, splitSub_none_rf headClose _ _ hn]
  · intro pre suf hsp
    constructor
    · rw [hb, splitSub_some_rf headClose _ _ _ _ hsp]
    · intro p2 s2 hdecomp
      exact splitSub_min headClose _ pre suf hsp p2 s2 hdecomp

set_option maxRecDepth 8000 in
/-- C10, witness. -/
theorem c10_script_injection_witness :
    (handleProxy (some ("https://example.com/".data))
        (FetchRes.ok 200 [] [(ctN, "text/html".data)]
          ("<html><head></head><body></body></html>".data))
        ("https://p.example".data)).1.body =
      "<html><head>".data ++
        (injectScr ("https://p.example".data)
            (baseStrOf (UrlRec.auth ("https".data) ("example.com".data)
              ("/".data) [] []))
          ++ headClose) ++ "<body></body></html>".data :=
  ((c10_script_injection ("https://example.com/".data)
      (UrlRec.auth ("https".data) ("example.com".data) ("/".data) [] [])
      ("https://p.example".data) 200 [] [(ctN, "text/html".data)]
      ("<html><head></head><body></body></html>".data)
      (by decide) (Or.inr (by decide)) (by decide)).2
    ("<html><head>".data) ("<body></body></html>".data) (by decide)).1

end Esa
